import Mathlib

/-!
Shallow embedding of the blurz D-Bus Bluetooth client library.

Pure data and control flow of the library is translated from the Rust
source (src/bluetooth_utils.rs, src/bluetooth_adapter.rs,
src/bluetooth_discovery_session.rs, src/bluetooth_gatt_characteristic.rs,
src/bluetooth_gatt_descriptor.rs, src/bluetooth_gatt_service.rs,
src/bluetooth_obex.rs, src/lib.rs).  The bus itself is modelled as an
explicit environment (a `Daemon` record holding the managed-objects reply
and a property table); a Rust `panic` (an `unwrap` on `None`/`Err`, an
out-of-bounds index or slice) is modelled as the distinguished outcome
`Fault.panicked`, kept apart from the library's error enum `BlurzError`.
-/

/-- Error enum from src/lib.rs.  The `FailedToGetStatus` variant is the one
constructed by `BluetoothOBEXTransfer::status` in src/bluetooth_obex.rs
(line 161); the enum declaration in the src/lib.rs snapshot does not list
it even though the obex module constructs it, so it is included here as the
variant that source file names. -/
inductive BlurzError where
  | DbusError (msg : String)
  | UnkownError (msg : String)
  | NotImplemented (name : String)
  | AdapterNotFound
  | NoDeviceFound
  | DeprecatedFeature (name : String)
  | FailedToGetStatus
deriving DecidableEq, Repr

/-- Outcome of running a piece of Rust code: a Rust panic (`unwrap` failure,
index out of bounds) is `panicked`; a returned `Err(e)` is `error e`. -/
inductive Fault where
  | panicked
  | error (e : BlurzError)
deriving DecidableEq, Repr

/-- Result of a Rust function returning `Result<A, BlurzError>`, with the
extra `Fault.panicked` outcome for aborts. -/
abbrev RRes (α : Type) := Except Fault α

/-- Model of `.unwrap()` on an `Option`: panics on `none`. -/
def unwrapP {α : Type} : Option α → RRes α
  | some a => Except.ok a
  | none => Except.error Fault.panicked

/-- The dbus `MessageItem` tagged value type, restricted to the variants the
library constructs or inspects. -/
inductive MessageItem where
  | str (s : String)
  | objectPath (s : String)
  | bool (b : Bool)
  | u8 (n : Nat)
  | u16 (n : Nat)
  | i16 (n : Int)
  | u32 (n : Nat)
  | variant (m : MessageItem)
  | array (xs : List MessageItem)
  | dict (ps : List (MessageItem × MessageItem))

/-- dbus `inner::<&str>()`: succeeds on `Str` and `ObjectPath` items. -/
def inner_str : MessageItem → Option String
  | MessageItem.str s => some s
  | MessageItem.objectPath s => some s
  | _ => none

/-- dbus inner extraction of a dict as a slice of key-value pairs. -/
def inner_pairs : MessageItem → Option (List (MessageItem × MessageItem))
  | MessageItem.dict ps => some ps
  | _ => none

def ADAPTER_INTERFACE : String := "org.bluez.Adapter1"

def DEVICE_INTERFACE : String := "org.bluez.Device1"

def SERVICE_INTERFACE : String := "org.bluez.GattService1"

def CHARACTERISTIC_INTERFACE : String := "org.bluez.GattCharacteristic1"

def DESCRIPTOR_INTERFACE : String := "org.bluez.GattDescriptor1"

/-- The remote daemon as observed through one connection: the body items of
its reply to `GetManagedObjects` (or the bus error of that call), and its
property table `props interface object_path prop` (the reply of
`org.freedesktop.DBus.Properties.Get`, with the variant already peeled, or
a bus error). -/
structure Daemon where
  managedObjects : Except BlurzError (List MessageItem)
  props : String → String → String → Except BlurzError MessageItem

/-- `get_managed_objects` from src/bluetooth_utils.rs: the reply body items
of the `GetManagedObjects` call, or the bus error. -/
def get_managed_objects (d : Daemon) : Except BlurzError (List MessageItem) :=
  d.managedObjects

/-- `get_property` from src/bluetooth_utils.rs: a proxy `Get` on the given
interface, object path and property name. -/
def get_property (d : Daemon) (interface object_path prop : String) :
    Except BlurzError MessageItem :=
  d.props interface object_path prop

/-- Inner loop of `get_adapters`: `for (i, _) in interfaces.inner().unwrap()`,
pushing the entry path once per interface entry named `ADAPTER_INTERFACE`.
Both `i.inner().unwrap()` and `path.inner().unwrap()` panic on a tag
mismatch. -/
def adapterNamesLoop (path : MessageItem) :
    List (MessageItem × MessageItem) → RRes (List String)
  | [] => Except.ok []
  | (i, _) :: rest => do
    let name ← unwrapP (inner_str i)
    if name = ADAPTER_INTERFACE then do
      let p ← unwrapP (inner_str path)
      let tail ← adapterNamesLoop path rest
      Except.ok (p :: tail)
    else
      adapterNamesLoop path rest

/-- Outer loop of `get_adapters`: `for (path, interfaces) in z`, where each
`interfaces.inner().unwrap()` panics unless the entry is a dict. -/
def adapterPathsLoop : List (MessageItem × MessageItem) → RRes (List String)
  | [] => Except.ok []
  | (path, interfaces) :: rest => do
    let ifs ← unwrapP (inner_pairs interfaces)
    let here ← adapterNamesLoop path ifs
    let tail ← adapterPathsLoop rest
    Except.ok (here ++ tail)

/-- `get_adapters` from src/bluetooth_utils.rs: propagates the bus error of
`get_managed_objects` with the question-mark operator, then runs
`objects.get(0).unwrap().inner().unwrap()` — both unwraps panic (empty
reply body, or a first item that is not a dict) — and scans the graph. -/
def get_adapters (d : Daemon) : RRes (List String) := do
  let objects ← (get_managed_objects d).mapError Fault.error
  let first ← unwrapP objects.head?
  let z ← unwrapP (inner_pairs first)
  adapterPathsLoop z

/-- Proxy value from src/bluetooth_adapter.rs: an object path (the borrowed
session is the explicit `Daemon` argument of each operation here). -/
structure BluetoothAdapter where
  object_path : String

/-- `BluetoothAdapter::new`. -/
def BluetoothAdapter.new (object_path : String) : BluetoothAdapter :=
  { object_path := object_path }

/-- `BluetoothAdapter::get_id`: clones the stored object path. -/
def BluetoothAdapter.get_id (a : BluetoothAdapter) : String :=
  a.object_path

/-- `BluetoothAdapter::init`: enumerates adapters, errs with
`AdapterNotFound` on an empty list, otherwise wraps the first path. -/
def BluetoothAdapter.init (d : Daemon) : RRes BluetoothAdapter := do
  let adapters ← get_adapters d
  match adapters with
  | [] => Except.error (Fault.error BlurzError.AdapterNotFound)
  | a :: _ => Except.ok (BluetoothAdapter.new a)

/-- Private `BluetoothAdapter::get_property` helper. -/
def BluetoothAdapter.get_prop (d : Daemon) (a : BluetoothAdapter) (prop : String) :
    Except BlurzError MessageItem :=
  get_property d ADAPTER_INTERFACE a.object_path prop

/-- Inner loop of `list_item` from src/bluetooth_utils.rs: for each
interface entry of one object, on a name match it reads the parent
property of that object (`?` propagates the bus error), panics unless the
property value is a string, and pushes the object path when the value
equals the wanted parent path. -/
def listItemNamesLoop (d : Daemon) (item_interface item_path item_property : String)
    (path : MessageItem) :
    List (MessageItem × MessageItem) → RRes (List String)
  | [] => Except.ok []
  | (i, _) :: rest => do
    let name ← unwrapP (inner_str i)
    if name = item_interface then do
      let objpath ← unwrapP (inner_str path)
      let prop ← (get_property d item_interface objpath item_property).mapError Fault.error
      let prop_path ← unwrapP (inner_str prop)
      if prop_path = item_path then do
        let tail ← listItemNamesLoop d item_interface item_path item_property path rest
        Except.ok (objpath :: tail)
      else
        listItemNamesLoop d item_interface item_path item_property path rest
    else
      listItemNamesLoop d item_interface item_path item_property path rest

/-- Outer loop of `list_item`: `for (path, interfaces) in z`. -/
def listItemLoop (d : Daemon) (item_interface item_path item_property : String) :
    List (MessageItem × MessageItem) → RRes (List String)
  | [] => Except.ok []
  | (path, interfaces) :: rest => do
    let ifs ← unwrapP (inner_pairs interfaces)
    let here ← listItemNamesLoop d item_interface item_path item_property path ifs
    let tail ← listItemLoop d item_interface item_path item_property rest
    Except.ok (here ++ tail)

/-- `list_item` from src/bluetooth_utils.rs: same graph walk as
`get_adapters`, filtered by an interface name and by a parent property
value. -/
def list_item (d : Daemon) (item_interface item_path item_property : String) :
    RRes (List String) := do
  let objects ← (get_managed_objects d).mapError Fault.error
  let first ← unwrapP objects.head?
  let z ← unwrapP (inner_pairs first)
  listItemLoop d item_interface item_path item_property z

/-- `list_devices`. -/
def list_devices (d : Daemon) (adapter_path : String) : RRes (List String) :=
  list_item d DEVICE_INTERFACE adapter_path "Adapter"

/-- `list_services`. -/
def list_services (d : Daemon) (device_path : String) : RRes (List String) :=
  list_item d SERVICE_INTERFACE device_path "Device"

/-- `list_characteristics`. -/
def list_characteristics (d : Daemon) (device_path : String) : RRes (List String) :=
  list_item d CHARACTERISTIC_INTERFACE device_path "Service"

/-- `list_descriptors`. -/
def list_descriptors (d : Daemon) (device_path : String) : RRes (List String) :=
  list_item d DESCRIPTOR_INTERFACE device_path "Characteristic"

/-! Modalias parsing, from `BluetoothAdapter::get_modalias`
(src/bluetooth_adapter.rs lines 215-231).  Rust strings are modelled as
their character lists (every string this code slices is ASCII, so byte
positions and character positions agree). -/

/-- Rust `str::split(':')` on a character list. -/
def splitColon : List Char → List (List Char)
  | [] => [[]]
  | c :: rest =>
    if c = ':' then [] :: splitColon rest
    else
      match splitColon rest with
      | h :: t => (c :: h) :: t
      | [] => [[c]]

/-- Rust `Vec` indexing `v[i]`: panics when out of bounds. -/
def vecIdx {α : Type} (xs : List α) (i : Nat) : RRes α :=
  unwrapP xs[i]?

/-- Rust string slicing `s[a..b]`: panics when the range is out of bounds. -/
def strSlice (s : List Char) (a b : Nat) : RRes (List Char) :=
  if a ≤ b ∧ b ≤ s.length then Except.ok ((s.drop a).take (b - a))
  else Except.error Fault.panicked

/-- One hex digit, as accepted by the hex crate's `FromHex` (0-9, a-f, A-F). -/
def hexDigit? (c : Char) : Option Nat :=
  if '0' ≤ c ∧ c ≤ '9' then some (c.toNat - '0'.toNat)
  else if 'a' ≤ c ∧ c ≤ 'f' then some (c.toNat - 'a'.toNat + 10)
  else if 'A' ≤ c ∧ c ≤ 'F' then some (c.toNat - 'A'.toNat + 10)
  else none

/-- `Vec::from_hex`: decodes pairs of hex digits into bytes; fails on an
odd length or a non-hex character. -/
def hexBytes : List Char → Option (List Nat)
  | [] => some []
  | c1 :: c2 :: rest => do
    let h1 ← hexDigit? c1
    let h2 ← hexDigit? c2
    let r ← hexBytes rest
    some ((16 * h1 + h2) :: r)
  | _ => none

/-- The `(v[0] as u32) * 16 * 16 + (v[1] as u32)` combination; the
indexing panics when the decoded vector has fewer than two bytes. -/
def byte2 : List Nat → RRes Nat
  | b0 :: b1 :: _ => Except.ok (b0 * 16 * 16 + b1)
  | _ => Except.error Fault.panicked

/-- The string-processing body of `BluetoothAdapter::get_modalias`: split
on the colon, take `ids[0]` as the source, slice `ids[1]` at the fixed
byte ranges 1..5, 6..10 and 11..15, hex-decode each slice, and combine.
Every indexing, slicing and decoding failure is an `unwrap` panic. -/
def parse_modalias (m : List Char) : RRes (String × Nat × Nat × Nat) := do
  let ids := splitColon m
  let id0 ← vecIdx ids 0
  let source := String.mk id0
  let id1 ← vecIdx ids 1
  let vs ← strSlice id1 1 5
  let vendor ← unwrapP (hexBytes vs)
  let ps ← strSlice id1 6 10
  let product ← unwrapP (hexBytes ps)
  let ds ← strSlice id1 11 15
  let device ← unwrapP (hexBytes ds)
  let v ← byte2 vendor
  let p ← byte2 product
  let dv ← byte2 device
  Except.ok (source, v, p, dv)

/-- `BluetoothAdapter::get_modalias`: reads the `Modalias` property
(`?` on bus error, panic unless a string) and parses it. -/
def BluetoothAdapter.get_modalias (d : Daemon) (a : BluetoothAdapter) :
    RRes (String × Nat × Nat × Nat) := do
  let modalias ← (a.get_prop d "Modalias").mapError Fault.error
  let m ← unwrapP (inner_str modalias)
  parse_modalias m.toList

/-! OBEX transfer polling, from src/bluetooth_obex.rs. -/

/-- `TransferState` enum from src/bluetooth_obex.rs. -/
inductive TransferState where
  | Queued
  | Active
  | Complete
  | Suspended
  | Error

/-- `TransferState::as_str`. -/
def TransferState.as_str : TransferState → String
  | TransferState.Queued => "queued"
  | TransferState.Active => "active"
  | TransferState.Complete => "complete"
  | TransferState.Suspended => "suspended"
  | TransferState.Error => "error"

/-- `BluetoothOBEXTransfer::status`: reads the `Status` property of the
transfer object (a bus error propagates); on a value whose tag is not a
string it returns `Err(FailedToGetStatus)` — the one reader with an
explicit tag check.  The argument is the daemon's reply for that property
read. -/
def BluetoothOBEXTransfer.status (statusProp : Except BlurzError MessageItem) :
    Except BlurzError String :=
  match statusProp with
  | Except.error e => Except.error e
  | Except.ok status =>
    match inner_str status with
    | some value => Except.ok value
    | none => Except.error BlurzError.FailedToGetStatus

/-- The `while` loop of `wait_until_transfer_completed`, with
`transfer_status` as loop state and the list holding the outcomes of the
successive `status()` polls the loop performs.  The loop exits returning
unit when the current status is `complete`, when a poll yields `error`, or
when a poll fails; `none` means the loop would poll again beyond the
outcomes supplied. -/
def waitLoop (ts : String) (polls : List (Except BlurzError String)) :
    Option (Except BlurzError Unit) :=
  if ts = TransferState.Complete.as_str then some (Except.ok ())
  else
    match polls with
    | [] => none
    | Except.error _ :: _ => some (Except.ok ())
    | Except.ok value :: rest =>
      if value = TransferState.Error.as_str then some (Except.ok ())
      else waitLoop value rest

/-- `BluetoothOBEXTransfer::wait_until_transfer_completed`: the first
`status()` poll is propagated with the question-mark operator (its error
becomes the function's result); every later poll is handled by the loop.
The input is the list of successive poll outcomes; `none` means the
function would keep polling beyond them. -/
def wait_until_transfer_completed (polls : List (Except BlurzError String)) :
    Option (Except BlurzError Unit) :=
  match polls with
  | [] => none
  | first :: rest =>
    match first with
    | Except.error e => some (Except.error e)
    | Except.ok ts => waitLoop ts rest

/-! Discovery filter marshalling, from
`BluetoothDiscoverySession::set_discovery_filter`
(src/bluetooth_discovery_session.rs lines 58-105). -/

/-- Proxy value from src/bluetooth_gatt_service.rs. -/
structure BluetoothGATTService where
  object_path : String

/-- `BluetoothGATTService::new`. -/
def BluetoothGATTService.new (object_path : String) : BluetoothGATTService :=
  { object_path := object_path }

/-- `BluetoothGATTService::get_id`. -/
def BluetoothGATTService.get_id (s : BluetoothGATTService) : String :=
  s.object_path

/-- Proxy value from src/bluetooth_gatt_characteristic.rs. -/
structure BluetoothGATTCharacteristic where
  object_path : String

/-- `BluetoothGATTCharacteristic::new`. -/
def BluetoothGATTCharacteristic.new (object_path : String) : BluetoothGATTCharacteristic :=
  { object_path := object_path }

/-- `BluetoothGATTCharacteristic::get_id`. -/
def BluetoothGATTCharacteristic.get_id (c : BluetoothGATTCharacteristic) : String :=
  c.object_path

/-- Proxy value from src/bluetooth_gatt_descriptor.rs. -/
structure BluetoothGATTDescriptor where
  object_path : String

/-- `BluetoothGATTDescriptor::new`. -/
def BluetoothGATTDescriptor.new (object_path : String) : BluetoothGATTDescriptor :=
  { object_path := object_path }

/-- `BluetoothGATTDescriptor::get_id`. -/
def BluetoothGATTDescriptor.get_id (dsc : BluetoothGATTDescriptor) : String :=
  dsc.object_path

/-- One object's interface dict entries (each interface mapped to its
property dict, which the enumeration loops ignore). -/
def ifaceEntries (ifs : List String) : List (MessageItem × MessageItem) :=
  ifs.map (fun i => (MessageItem.str i, MessageItem.dict []))

/-- The top-level path-to-interfaces dict entries of the reply. -/
def graphEntries (g : List (String × List String)) : List (MessageItem × MessageItem) :=
  g.map (fun e => (MessageItem.objectPath e.1, MessageItem.dict (ifaceEntries e.2)))

/-- The full reply body: one dict item. -/
def encodeGraph (g : List (String × List String)) : List MessageItem :=
  [MessageItem.dict (graphEntries g)]

/-- A daemon publishing the abstract graph, with an arbitrary property
table. -/
def daemonOf (g : List (String × List String))
    (P : String → String → String → Except BlurzError MessageItem) : Daemon :=
  { managedObjects := Except.ok (encodeGraph g), props := P }

/-- A daemon publishing the abstract graph whose property table answers
every property read on a path with the string `parentOf path` — the
parent back-reference the child-enumeration queries ask for. -/
def daemonParent (g : List (String × List String)) (parentOf : String → String) : Daemon :=
  daemonOf g (fun _ path _ => Except.ok (MessageItem.str (parentOf path)))

/-- Number of occurrences of a string in a list (an entry advertising an
interface set lists each interface once, so the claims assume count at
most one). -/
def countOcc (a : String) : List String → Nat
  | [] => 0
  | b :: rest => (if b = a then 1 else 0) + countOcc a rest

/-- Expected result of adapter enumeration, in the claim's words: the
paths of exactly the entries whose interface set includes the adapter
interface, in graph order. -/
def specAdapterPaths : List (String × List String) → List String
  | [] => []
  | e :: g =>
    if ADAPTER_INTERFACE ∈ e.2 then e.1 :: specAdapterPaths g else specAdapterPaths g

/-- Expected result of child enumeration, in the claim's words: the paths
of exactly the entries advertised under the child interface whose parent
property equals the given parent path. -/
def specChildren (parentOf : String → String) (iface parent : String) :
    List (String × List String) → List String
  | [] => []
  | e :: g =>
    if iface ∈ e.2 ∧ parentOf e.1 = parent then
      e.1 :: specChildren parentOf iface parent g
    else specChildren parentOf iface parent g

/-! Concrete daemons for witnesses and counterexamples. -/

/-- Witness graph: one adapter and one device. -/
def witnessGraph : List (String × List String) :=
  [("/org/bluez/hci0", [ADAPTER_INTERFACE]), ("/org/bluez/hci0/dev_11", [DEVICE_INTERFACE])]

/-- Witness property table: every property read fails (adapter
enumeration never reads properties). -/
def witnessProps : String → String → String → Except BlurzError MessageItem :=
  fun _ _ _ => Except.error (BlurzError.DbusError "unused")

/-- Witness graph for child enumeration: two devices under different
adapters, plus the adapters themselves. -/
def childGraph : List (String × List String) :=
  [("/org/bluez/hci0", [ADAPTER_INTERFACE]),
   ("/org/bluez/hci0/dev_11", [DEVICE_INTERFACE]),
   ("/org/bluez/hci1/dev_22", [DEVICE_INTERFACE])]

/-- Witness parent map: each device points at its adapter. -/
def childParentOf (p : String) : String :=
  if p = "/org/bluez/hci0/dev_11" then "/org/bluez/hci0"
  else if p = "/org/bluez/hci1/dev_22" then "/org/bluez/hci1"
  else ""

/-! Reduction helpers for the Except monad. -/

theorem rres_ok_bind {α β : Type} (a : α) (f : α → RRes β) :
    (Except.ok a : RRes α) >>= f = f a := rfl

theorem mapError_ok {ε ε' α : Type} (f : ε → ε') (a : α) :
    Except.mapError f (Except.ok a : Except ε α) = Except.ok a := rfl

theorem countOcc_pos_iff (a : String) (l : List String) :
    0 < countOcc a l ↔ a ∈ l := by
  induction l with
  | nil => simp [countOcc]
  | cons b rest ih =>
    by_cases h : b = a
    · subst h
      simp [countOcc]
    · simp [countOcc, h, ih, Ne.symm h, eq_comm]

theorem countOcc_eq_zero (a : String) (l : List String) (h : a ∉ l) :
    countOcc a l = 0 := by
  have := (countOcc_pos_iff a l).not.mpr h
  omega

theorem countOcc_eq_one (a : String) (l : List String) (hle : countOcc a l ≤ 1)
    (h : a ∈ l) : countOcc a l = 1 := by
  have := (countOcc_pos_iff a l).mpr h
  omega

/-! Claim C1 machinery. -/

theorem adapterNamesLoop_encode (path : String) (ifs : List String) :
    adapterNamesLoop (MessageItem.objectPath path) (ifaceEntries ifs) =
      Except.ok (List.replicate (countOcc ADAPTER_INTERFACE ifs) path) := by
  induction ifs with
  | nil => rfl
  | cons i rest ih =>
    simp only [ifaceEntries, List.map_cons] at ih ⊢
    simp only [adapterNamesLoop, inner_str, unwrapP, rres_ok_bind]
    by_cases h : i = ADAPTER_INTERFACE
    · simp only [h, ih, countOcc, if_pos rfl, rres_ok_bind]
      rw [Nat.add_comm]
      simp [List.replicate_succ]
    · simp [h, ih, countOcc]

theorem adapterPathsLoop_encode (g : List (String × List String))
    (hcount : ∀ e ∈ g, countOcc ADAPTER_INTERFACE e.2 ≤ 1) :
    adapterPathsLoop (graphEntries g) = Except.ok (specAdapterPaths g) := by
  induction g with
  | nil => rfl
  | cons e g ih =>
    have he := hcount e (List.mem_cons_self e g)
    have ihg := ih (fun x hx => hcount x (List.mem_cons_of_mem e hx))
    simp only [graphEntries, List.map_cons] at ihg ⊢
    simp only [adapterPathsLoop, inner_pairs, unwrapP, rres_ok_bind,
      adapterNamesLoop_encode, ihg, specAdapterPaths]
    by_cases hm : ADAPTER_INTERFACE ∈ e.2
    · rw [countOcc_eq_one ADAPTER_INTERFACE e.2 he hm]
      simp [hm]
    · rw [countOcc_eq_zero ADAPTER_INTERFACE e.2 hm]
      simp [hm]

/-- Claim C1: over any managed-objects graph, `get_adapters` returns
exactly the paths whose interface set includes `org.bluez.Adapter1`;
`BluetoothAdapter::init` returns `AdapterNotFound` when that list is
empty and otherwise an adapter holding the first enumerated path. -/
theorem adapter_enumeration_spec (g : List (String × List String))
    (P : String → String → String → Except BlurzError MessageItem)
    (hcount : ∀ e ∈ g, countOcc ADAPTER_INTERFACE e.2 ≤ 1) :
    get_adapters (daemonOf g P) = Except.ok (specAdapterPaths g) ∧
    (specAdapterPaths g = [] →
      BluetoothAdapter.init (daemonOf g P) =
        Except.error (Fault.error BlurzError.AdapterNotFound)) ∧
    (∀ a rest, specAdapterPaths g = a :: rest →
      BluetoothAdapter.init (daemonOf g P) =
        Except.ok (BluetoothAdapter.new a)) := by
  have hget : get_adapters (daemonOf g P) = Except.ok (specAdapterPaths g) := by
    simp only [get_adapters, get_managed_objects, daemonOf, encodeGraph, mapError_ok,
      rres_ok_bind, List.head?, unwrapP, inner_pairs]
    exact adapterPathsLoop_encode g hcount
  refine ⟨hget, ?_, ?_⟩
  · intro hnil
    simp [BluetoothAdapter.init, hget, hnil, rres_ok_bind]
  · intro a rest hcons
    simp [BluetoothAdapter.init, hget, hcons, rres_ok_bind]

/-- Witness for C1 at a concrete two-object graph. -/
theorem adapter_enumeration_witness :
    get_adapters (daemonOf witnessGraph witnessProps) = Except.ok ["/org/bluez/hci0"] ∧
    BluetoothAdapter.init (daemonOf witnessGraph witnessProps) =
      Except.ok (BluetoothAdapter.new "/org/bluez/hci0") := by
  have h := adapter_enumeration_spec witnessGraph witnessProps (by decide)
  exact ⟨h.1, h.2.2 "/org/bluez/hci0" [] (by decide)⟩

/-! Claim C2 machinery. -/

theorem listItemNamesLoop_encode (g : List (String × List String))
    (parentOf : String → String) (iface parent prop path : String) (ifs : List String) :
    listItemNamesLoop (daemonParent g parentOf) iface parent prop
        (MessageItem.objectPath path) (ifaceEntries ifs) =
      Except.ok (if parentOf path = parent then
          List.replicate (countOcc iface ifs) path else []) := by
  induction ifs with
  | nil =>
    simp only [ifaceEntries, List.map_nil, listItemNamesLoop, countOcc, List.replicate_zero]
    split <;> rfl
  | cons i rest ih =>
    simp only [ifaceEntries, List.map_cons] at ih ⊢
    simp only [listItemNamesLoop, inner_str, unwrapP, rres_ok_bind]
    by_cases h : i = iface
    · simp only [h, if_pos rfl, daemonParent, daemonOf, get_property, mapError_ok,
        rres_ok_bind, inner_str, unwrapP]
      simp only [daemonParent, daemonOf] at ih
      rw [ih]
      by_cases hp : parentOf path = parent
      · simp only [hp, if_pos rfl, rres_ok_bind, countOcc]
        rw [Nat.add_comm]
        simp [List.replicate_succ]
      · simp [hp]
    · simp only [h, if_neg h, ih, countOcc]
      by_cases hp : parentOf path = parent
      · simp [hp, h]
      · simp [hp]

theorem listItemLoop_encode (g0 g : List (String × List String))
    (parentOf : String → String) (iface parent prop : String)
    (hcount : ∀ e ∈ g, countOcc iface e.2 ≤ 1) :
    listItemLoop (daemonParent g0 parentOf) iface parent prop (graphEntries g) =
      Except.ok (specChildren parentOf iface parent g) := by
  induction g with
  | nil => rfl
  | cons e g ih =>
    have he := hcount e (List.mem_cons_self e g)
    have ihg := ih (fun x hx => hcount x (List.mem_cons_of_mem e hx))
    simp only [graphEntries, List.map_cons] at ihg ⊢
    simp only [listItemLoop, inner_pairs, unwrapP, rres_ok_bind,
      listItemNamesLoop_encode, ihg, specChildren]
    by_cases hp : parentOf e.1 = parent
    · by_cases hm : iface ∈ e.2
      · rw [countOcc_eq_one iface e.2 he hm]
        simp [hp, hm]
      · rw [countOcc_eq_zero iface e.2 hm]
        simp [hp, hm]
    · simp [hp]

/-- Claim C2: child enumeration returns exactly the object paths
advertised under the child interface whose parent property equals the
given parent path; siblings of other parents are excluded and an empty
result is an `Ok` result; the four list functions are `list_item`
instances with the documented interface and parent-property names. -/
theorem list_item_parent_filter (g : List (String × List String))
    (parentOf : String → String) (iface parent prop : String)
    (hcount : ∀ e ∈ g, countOcc iface e.2 ≤ 1) :
    list_item (daemonParent g parentOf) iface parent prop =
      Except.ok (specChildren parentOf iface parent g) ∧
    (∀ d a, list_devices d a = list_item d DEVICE_INTERFACE a "Adapter") ∧
    (∀ d a, list_services d a = list_item d SERVICE_INTERFACE a "Device") ∧
    (∀ d a, list_characteristics d a = list_item d CHARACTERISTIC_INTERFACE a "Service") ∧
    (∀ d a, list_descriptors d a = list_item d DESCRIPTOR_INTERFACE a "Characteristic") := by
  refine ⟨?_, fun _ _ => rfl, fun _ _ => rfl, fun _ _ => rfl, fun _ _ => rfl⟩
  simp only [list_item, get_managed_objects, daemonParent, daemonOf, encodeGraph,
    mapError_ok, rres_ok_bind, List.head?, unwrapP, inner_pairs]
  exact listItemLoop_encode g g parentOf iface parent prop hcount

/-- Witness for C2 at a concrete graph with two devices under two
different adapters: only the child of the queried adapter is returned. -/
theorem list_item_parent_filter_witness :
    list_item (daemonParent childGraph childParentOf)
        DEVICE_INTERFACE "/org/bluez/hci0" "Adapter" =
      Except.ok ["/org/bluez/hci0/dev_11"] := by
  have h := list_item_parent_filter childGraph childParentOf
    DEVICE_INTERFACE "/org/bluez/hci0" "Adapter" (by decide)
  exact h.1

/-! Claim C3. -/

theorem splitColon_no_colon (l : List Char) (h : ':' ∉ l) : splitColon l = [l] := by
  induction l with
  | nil => rfl
  | cons c rest ih =>
    have hc : ¬c = ':' := fun hc => h (hc ▸ List.mem_cons_self c rest)
    have hr : ':' ∉ rest := fun hm => h (List.mem_cons_of_mem c hm)
    simp [splitColon, hc, ih hr]

theorem splitColon_append (pre rest : List Char) (h : ':' ∉ pre) :
    splitColon (pre ++ ':' :: rest) = pre :: splitColon rest := by
  induction pre with
  | nil => simp [splitColon]
  | cons c pre ih =>
    have hc : ¬c = ':' := fun hc => h (hc ▸ List.mem_cons_self c pre)
    have hp : ':' ∉ pre := fun hm => h (List.mem_cons_of_mem c hm)
    simp [splitColon, hc, ih hp]

theorem hexDigit_ne_colon {c : Char} {a : Nat} (h : hexDigit? c = some a) : c ≠ ':' := by
  intro hc
  rw [hc] at h
  have hnone : hexDigit? ':' = none := by decide
  rw [hnone] at h
  exact Option.noConfusion h

/-- Counterexample to C4 as stated: the input `usb` is malformed (no
colon), and the parser panics on the `ids[1]` index instead of returning
the `Unknown` error variant. -/
theorem parse_modalias_no_colon_panics :
    parse_modalias ('u' :: 's' :: 'b' :: []) = Except.error Fault.panicked := rfl

/-- Claim C4 amended: on every well-formed modalias string
src:vVVVVpPPPPdDDDD (src colon-free, twelve hex digits) the parser
returns the source and the three big-endian 16-bit values, and its
concrete example holds (see the witness); the claim's clause that every
malformed input produces the `Unknown` error variant is dropped — the
parser never constructs `Unknown` at all: an input such as usb panics on
the `ids[1]` index (see the counterexample), while other malformed
inputs, e.g. with trailing garbage after the fifteen sliced bytes, even
parse successfully. -/
theorem parse_modalias_wellformed (src : List Char) (hsrc : ':' ∉ src)
    (v1 v2 v3 v4 p1 p2 p3 p4 d1 d2 d3 d4 : Char)
    (a1 a2 a3 a4 b1 b2 b3 b4 c1 c2 c3 c4 : Nat)
    (hv1 : hexDigit? v1 = some a1) (hv2 : hexDigit? v2 = some a2)
    (hv3 : hexDigit? v3 = some a3) (hv4 : hexDigit? v4 = some a4)
    (hq1 : hexDigit? p1 = some b1) (hq2 : hexDigit? p2 = some b2)
    (hq3 : hexDigit? p3 = some b3) (hq4 : hexDigit? p4 = some b4)
    (hd1 : hexDigit? d1 = some c1) (hd2 : hexDigit? d2 = some c2)
    (hd3 : hexDigit? d3 = some c3) (hd4 : hexDigit? d4 = some c4) :
    parse_modalias (src ++ ':' :: 'v' :: v1 :: v2 :: v3 :: v4 ::
        'p' :: p1 :: p2 :: p3 :: p4 :: 'd' :: d1 :: d2 :: d3 :: d4 :: []) =
      Except.ok (String.mk src,
        (16 * a1 + a2) * 16 * 16 + (16 * a3 + a4),
        (16 * b1 + b2) * 16 * 16 + (16 * b3 + b4),
        (16 * c1 + c2) * 16 * 16 + (16 * c3 + c4)) := by
  have htail : ':' ∉ ('v' :: v1 :: v2 :: v3 :: v4 :: 'p' :: p1 :: p2 :: p3 :: p4 ::
      'd' :: d1 :: d2 :: d3 :: d4 :: []) := by
    intro hm
    simp only [List.mem_cons, List.not_mem_nil, or_false] at hm
    rcases hm with h|h|h|h|h|h|h|h|h|h|h|h|h|h|h
    · exact absurd h (by decide)
    · exact hexDigit_ne_colon hv1 h.symm
    · exact hexDigit_ne_colon hv2 h.symm
    · exact hexDigit_ne_colon hv3 h.symm
    · exact hexDigit_ne_colon hv4 h.symm
    · exact absurd h (by decide)
    · exact hexDigit_ne_colon hq1 h.symm
    · exact hexDigit_ne_colon hq2 h.symm
    · exact hexDigit_ne_colon hq3 h.symm
    · exact hexDigit_ne_colon hq4 h.symm
    · exact absurd h (by decide)
    · exact hexDigit_ne_colon hd1 h.symm
    · exact hexDigit_ne_colon hd2 h.symm
    · exact hexDigit_ne_colon hd3 h.symm
    · exact hexDigit_ne_colon hd4 h.symm
  simp only [parse_modalias]
  rw [splitColon_append _ _ hsrc, splitColon_no_colon _ htail]
  simp [vecIdx, unwrapP, strSlice, hexBytes, byte2, rres_ok_bind,
    hv1, hv2, hv3, hv4, hq1, hq2, hq3, hq4, hd1, hd2, hd3, hd4]

/-- Witness for the amended C4 at the spec's concrete example:
usb:v1D6Bp0246d052A parses to (usb, 0x1D6B, 0x0246, 0x052A). -/
theorem parse_modalias_wellformed_witness :
    parse_modalias ("usb:v1D6Bp0246d052A".toList) =
      Except.ok ("usb", 0x1D6B, 0x0246, 0x052A) := by
  have h := parse_modalias_wellformed ('u' :: 's' :: 'b' :: []) (by decide)
    '1' 'D' '6' 'B' '0' '2' '4' '6' '0' '5' '2' 'A'
    1 13 6 11 0 2 4 6 0 5 2 10
    (by decide) (by decide) (by decide) (by decide)
    (by decide) (by decide) (by decide) (by decide)
    (by decide) (by decide) (by decide) (by decide)
  simpa using h

/-! Claims C5 and C6 machinery. -/

theorem waitLoop_none_or_ok (ts : String) (polls : List (Except BlurzError String)) :
    waitLoop ts polls = none ∨ waitLoop ts polls = some (Except.ok ()) := by
  induction polls generalizing ts with
  | nil =>
    rw [waitLoop.eq_def]
    split
    · exact Or.inr rfl
    · exact Or.inl rfl
  | cons p rest ih =>
    by_cases hts : ts = TransferState.Complete.as_str
    · rw [waitLoop.eq_def, if_pos hts]
      exact Or.inr rfl
    · rw [waitLoop.eq_def, if_neg hts]
      cases p with
      | error e => exact Or.inr rfl
      | ok value =>
        show (if value = TransferState.Error.as_str then some (Except.ok ())
            else waitLoop value rest) = none ∨
          (if value = TransferState.Error.as_str then some (Except.ok ())
            else waitLoop value rest) = some (Except.ok ())
        by_cases hv : value = TransferState.Error.as_str
        · rw [if_pos hv]
          exact Or.inr rfl
        · rw [if_neg hv]
          exact ih value

theorem waitLoop_reaches_complete (pre : List String)
    (h : ∀ s ∈ pre, s ≠ "complete" ∧ s ≠ "error") :
    ∀ t : String, t ≠ "complete" →
      waitLoop t (pre.map Except.ok ++ [Except.ok "complete"]) = some (Except.ok ()) := by
  induction pre with
  | nil =>
    intro t ht
    rw [List.map_nil, List.nil_append, waitLoop]
    simp only [TransferState.as_str]
    rw [if_neg ht]
    rfl
  | cons s pre ih =>
    intro t ht
    have hs := h s (List.mem_cons_self s pre)
    rw [List.map_cons, List.cons_append, waitLoop]
    simp only [TransferState.as_str]
    rw [if_neg ht, if_neg hs.2]
    exact ih (fun x hx => h x (List.mem_cons_of_mem s hx)) s hs.1

theorem waitLoop_reaches_error (pre : List String)
    (h : ∀ s ∈ pre, s ≠ "complete" ∧ s ≠ "error") :
    ∀ t : String, t ≠ "complete" →
      waitLoop t (pre.map Except.ok ++ [Except.ok "error", Except.ok "error"]) =
        some (Except.ok ()) := by
  induction pre with
  | nil =>
    intro t ht
    rw [List.map_nil, List.nil_append, waitLoop]
    simp only [TransferState.as_str]
    rw [if_neg ht]
    rfl
  | cons s pre ih =>
    intro t ht
    have hs := h s (List.mem_cons_self s pre)
    rw [List.map_cons, List.cons_append, waitLoop]
    simp only [TransferState.as_str]
    rw [if_neg ht, if_neg hs.2]
    exact ih (fun x hx => h x (List.mem_cons_of_mem s hx)) s hs.1

/-- Counterexample to C5 as stated: when the first `status()` poll fails,
`wait_until_transfer_completed` propagates the error with the
question-mark operator instead of returning unit. -/
theorem wait_first_poll_error_propagates :
    wait_until_transfer_completed [Except.error BlurzError.FailedToGetStatus] =
      some (Except.error BlurzError.FailedToGetStatus) := rfl

/-- Claim C5 amended: a failure of the first `status()` poll is returned
as that error; once the first poll has succeeded, every result the
function ever returns is unit — later poll failures only break the loop. -/
theorem wait_error_policy :
    (∀ (e : BlurzError) (rest : List (Except BlurzError String)),
      wait_until_transfer_completed (Except.error e :: rest) = some (Except.error e)) ∧
    (∀ (s : String) (rest : List (Except BlurzError String)),
      wait_until_transfer_completed (Except.ok s :: rest) = none ∨
      wait_until_transfer_completed (Except.ok s :: rest) = some (Except.ok ())) := by
  refine ⟨fun e rest => rfl, fun s rest => ?_⟩
  exact waitLoop_none_or_ok s rest

/-- Claim C6: a mock transfer polling non-terminal statuses and then
`complete` makes `wait_until_transfer_completed` return unit within those
N+1 poll outcomes; a transfer that reaches the terminal `error` status
(and keeps reporting it) also makes it return unit rather than loop. -/
theorem wait_termination (pre : List String)
    (h : ∀ s ∈ pre, s ≠ "complete" ∧ s ≠ "error") :
    wait_until_transfer_completed (pre.map Except.ok ++ [Except.ok "complete"]) =
      some (Except.ok ()) ∧
    wait_until_transfer_completed
        (pre.map Except.ok ++ [Except.ok "error", Except.ok "error"]) =
      some (Except.ok ()) := by
  constructor
  · cases pre with
    | nil => rfl
    | cons s pre =>
      have hs := h s (List.mem_cons_self s pre)
      rw [List.map_cons, List.cons_append, wait_until_transfer_completed]
      exact waitLoop_reaches_complete pre
        (fun x hx => h x (List.mem_cons_of_mem s hx)) s hs.1
  · cases pre with
    | nil => rfl
    | cons s pre =>
      have hs := h s (List.mem_cons_self s pre)
      rw [List.map_cons, List.cons_append, wait_until_transfer_completed]
      exact waitLoop_reaches_error pre
        (fun x hx => h x (List.mem_cons_of_mem s hx)) s hs.1

/-- Witness for C6: queued, active, complete terminates with unit in three
polls; queued, active, error terminates with unit as well. -/
theorem wait_termination_witness :
    wait_until_transfer_completed
        [Except.ok "queued", Except.ok "active", Except.ok "complete"] =
      some (Except.ok ()) ∧
    wait_until_transfer_completed
        [Except.ok "queued", Except.ok "active", Except.ok "error", Except.ok "error"] =
      some (Except.ok ()) := by
  have h := wait_termination ["queued", "active"] (by decide)
  exact h

/-! Claim C7. -/

/-- Counterexample to C9 as stated: a `Status` property holding the
string banana — not one of the five known state strings — is returned as
`Ok("banana")`, not as the `FailedToGetStatus` error the claim requires
for values that are not known state strings. -/
theorem status_unknown_state_ok :
    BluetoothOBEXTransfer.status (Except.ok (MessageItem.str "banana")) =
      Except.ok "banana" := rfl

/-- Claim C9 amended: `status` returns `Ok` with the daemon's `Status`
string whenever the property value decodes as a string — known transfer
state or not — fails with `FailedToGetStatus` exactly when the value's
tag is not a string, and propagates a bus error of the property read. -/
theorem status_string_policy (mi : MessageItem) (e : BlurzError) :
    (∀ s, BluetoothOBEXTransfer.status (Except.ok (MessageItem.str s)) = Except.ok s) ∧
    (inner_str mi = none →
      BluetoothOBEXTransfer.status (Except.ok mi) =
        Except.error BlurzError.FailedToGetStatus) ∧
    BluetoothOBEXTransfer.status (Except.error e) = Except.error e := by
  refine ⟨fun s => rfl, fun h => ?_, rfl⟩
  simp [BluetoothOBEXTransfer.status, h]

/-- Witness for the amended C9: a boolean-tagged `Status` value yields
`FailedToGetStatus`. -/
theorem status_string_policy_witness :
    BluetoothOBEXTransfer.status (Except.ok (MessageItem.bool true)) =
      Except.error BlurzError.FailedToGetStatus :=
  (status_string_policy (MessageItem.bool true) BlurzError.AdapterNotFound).2.1 rfl

/-! Claim C10. -/

/-- Claim C10: each proxy type hands back through `get_id` exactly the
object path it was constructed with; the proxies are pure values — every
modelled operation takes the proxy unchanged and returns only a result,
so no operation can alter the stored path. -/
theorem get_id_roundtrip (p : String) :
    (BluetoothAdapter.new p).get_id = p ∧
    (BluetoothGATTService.new p).get_id = p ∧
    (BluetoothGATTCharacteristic.new p).get_id = p ∧
    (BluetoothGATTDescriptor.new p).get_id = p :=
  ⟨rfl, rfl, rfl, rfl⟩
